import Mathlib

/-!
Verification of the code-quality analyzer (`code_quality_analyzer.py`).

The Python module parses source files into syntax trees (`ast`), runs ten
smell detectors over each tree, computes a maintainability index and a
quality score per file, and aggregates the per-file results into project
metrics.  This file shallowly embeds the analyzer:

* The Python `ast` node kinds that the analyzer inspects are modelled by the
  inductive types `PExpr`, `Stmt` and `PHandler`.  A parsed module
  (`ast.Module`) is its list of top-level statements (`PyModule`).
  Expression nodes never contain statement nodes in Python, so statement
  traversals recurse through statement bodies only; this is extensionally
  the same set of statement nodes that `ast.walk` reaches.  `ast.walk`
  enumerates nodes breadth-first; the embedding walks depth-first in
  pre-order.  Every detector below depends only on the multiset of nodes
  (or on per-node data), never on the global enumeration order, so the two
  orders are interchangeable for the stated theorems.
* Python `float` arithmetic is modelled by real arithmetic; `math.log` and
  `math.log2` become `Real.log` and `Real.logb 2`.
* The analyzer object's mutable fields `self.smells` and `self.files`
  become an explicit `AnalyzerState` threaded through `analyze_file`.
  Python string literals are reproduced verbatim except that single-quote
  characters inside message strings are elided.
-/

/-- Python expression nodes used by the analyzer.  The `isLoad` flag on
`name` records whether the `ast.Name` node has `ast.Load` context. -/
inductive PExpr where
  | name (id : String) (isLoad : Bool)
  | const
  | attr (value : PExpr) (attrName : String)
  | call (fn : PExpr) (args : List PExpr)
  | tuple (elts : List PExpr)
  | binOp (left right : PExpr)
  | boolOp (values : List PExpr)

/-- A formal parameter (`ast.arg`): its name and whether it carries a type
annotation (`arg.annotation is not None`). -/
structure PArg where
  argName : String
  annotated : Bool

mutual
/-- Python statement nodes used by the analyzer.  Every statement carries
its 1-based `lineno`.  `funcDef` records whether `node.returns` is present
(`retAnnotated`). -/
inductive Stmt where
  | funcDef (name : String) (line : Nat) (args : List PArg) (retAnnotated : Bool) (body : List Stmt)
  | classDef (name : String) (line : Nat) (body : List Stmt)
  | ifStmt (line : Nat) (test : PExpr) (body : List Stmt) (orelse : List Stmt)
  | forStmt (line : Nat) (target : PExpr) (iter : PExpr) (body : List Stmt) (orelse : List Stmt)
  | asyncForStmt (line : Nat) (target : PExpr) (iter : PExpr) (body : List Stmt) (orelse : List Stmt)
  | whileStmt (line : Nat) (test : PExpr) (body : List Stmt) (orelse : List Stmt)
  | withStmt (line : Nat) (ctxExpr : PExpr) (body : List Stmt)
  | asyncWithStmt (line : Nat) (ctxExpr : PExpr) (body : List Stmt)
  | tryStmt (line : Nat) (body : List Stmt) (handlers : List PHandler) (orelse : List Stmt) (finalbody : List Stmt)
  | ret (line : Nat) (value : Option PExpr)
  | raiseStmt (line : Nat) (value : Option PExpr)
  | breakStmt (line : Nat)
  | continueStmt (line : Nat)
  | assign (line : Nat) (targets : List PExpr) (value : PExpr)
  | annAssign (line : Nat) (target : PExpr) (value : Option PExpr)
  | assertStmt (line : Nat) (test : PExpr)
  | importStmt (line : Nat) (names : List String)
  | exprStmt (line : Nat) (e : PExpr)
  | passStmt (line : Nat)
/-- An `ast.ExceptHandler`: optional exception-type expression, `lineno`,
and handler body. -/
inductive PHandler where
  | mk (htype : Option PExpr) (line : Nat) (body : List Stmt)
end

/-- A parsed file (`ast.Module`): its top-level statement list. -/
abbrev PyModule := List Stmt

/-- The `lineno` of a statement (the code reads `getattr(stmt, "lineno", 1)`;
every statement node carries a `lineno`). -/
def stmtLine : Stmt → Nat
  | .funcDef _ l _ _ _ => l
  | .classDef _ l _ => l
  | .ifStmt l _ _ _ => l
  | .forStmt l _ _ _ _ => l
  | .asyncForStmt l _ _ _ _ => l
  | .whileStmt l _ _ _ => l
  | .withStmt l _ _ => l
  | .asyncWithStmt l _ _ => l
  | .tryStmt l _ _ _ _ => l
  | .ret l _ => l
  | .raiseStmt l _ => l
  | .breakStmt l => l
  | .continueStmt l => l
  | .assign l _ _ => l
  | .annAssign l _ _ => l
  | .assertStmt l _ => l
  | .importStmt l _ => l
  | .exprStmt l _ => l
  | .passStmt l => l

/-- `isinstance(node, (ast.If, ast.For, ast.While, ast.With, ast.AsyncFor,
ast.AsyncWith, ast.Try))`: the control-flow constructs that increase
nesting depth and that the unreachable-code walker recurses into. -/
def isControlFlow : Stmt → Bool
  | .ifStmt _ _ _ _ => true
  | .forStmt _ _ _ _ _ => true
  | .asyncForStmt _ _ _ _ _ => true
  | .whileStmt _ _ _ _ => true
  | .withStmt _ _ _ => true
  | .asyncWithStmt _ _ _ => true
  | .tryStmt _ _ _ _ _ => true
  | _ => false

/-- `isinstance(stmt, (ast.Return, ast.Raise, ast.Break, ast.Continue))`. -/
def isTerminator : Stmt → Bool
  | .ret _ _ => true
  | .raiseStmt _ _ => true
  | .breakStmt _ => true
  | .continueStmt _ => true
  | _ => false

/-- `isinstance(node, ast.FunctionDef)`. -/
def isFuncDef : Stmt → Bool
  | .funcDef _ _ _ _ _ => true
  | _ => false

mutual
/-- All statement nodes of the subtree rooted at a statement, the root
included — the statement nodes that `ast.walk(node)` yields. -/
def stmtWalk : Stmt → List Stmt
  | .funcDef n l a r b => .funcDef n l a r b :: blockWalk b
  | .classDef n l b => .classDef n l b :: blockWalk b
  | .ifStmt l t b o => .ifStmt l t b o :: (blockWalk b ++ blockWalk o)
  | .forStmt l tg it b o => .forStmt l tg it b o :: (blockWalk b ++ blockWalk o)
  | .asyncForStmt l tg it b o => .asyncForStmt l tg it b o :: (blockWalk b ++ blockWalk o)
  | .whileStmt l t b o => .whileStmt l t b o :: (blockWalk b ++ blockWalk o)
  | .withStmt l c b => .withStmt l c b :: blockWalk b
  | .asyncWithStmt l c b => .asyncWithStmt l c b :: blockWalk b
  | .tryStmt l b hs o f => .tryStmt l b hs o f :: (blockWalk b ++ handlersWalk hs ++ blockWalk o ++ blockWalk f)
  | .ret l v => [.ret l v]
  | .raiseStmt l v => [.raiseStmt l v]
  | .breakStmt l => [.breakStmt l]
  | .continueStmt l => [.continueStmt l]
  | .assign l tg v => [.assign l tg v]
  | .annAssign l t v => [.annAssign l t v]
  | .assertStmt l t => [.assertStmt l t]
  | .importStmt l ns => [.importStmt l ns]
  | .exprStmt l e => [.exprStmt l e]
  | .passStmt l => [.passStmt l]
/-- Statement nodes of all subtrees of a statement list. -/
def blockWalk : List Stmt → List Stmt
  | [] => []
  | s :: rest => stmtWalk s ++ blockWalk rest
/-- Statement nodes inside a list of exception handlers. -/
def handlersWalk : List PHandler → List Stmt
  | [] => []
  | .mk _ _ hb :: rest => blockWalk hb ++ handlersWalk rest
end

/-- All statement nodes of a parsed module (the `ast.Module` node itself is
not a statement, so `len([n for n in ast.walk(tree) if isinstance(n,
ast.stmt)])` is exactly the length of this list). -/
def moduleWalk (tree : PyModule) : List Stmt := blockWalk tree

/-- `count_lines`: `len([n for n in ast.walk(node) if isinstance(n,
ast.stmt)])` — the node itself counts, being a statement. -/
def count_lines (s : Stmt) : Nat := (stmtWalk s).length

mutual
/-- All expression nodes of the subtree rooted at an expression, the root
included. -/
def exprWalk : PExpr → List PExpr
  | .name id ld => [.name id ld]
  | .const => [.const]
  | .attr v a => .attr v a :: exprWalk v
  | .call f args => .call f args :: (exprWalk f ++ exprListWalk args)
  | .tuple es => .tuple es :: exprListWalk es
  | .binOp l r => .binOp l r :: (exprWalk l ++ exprWalk r)
  | .boolOp vs => .boolOp vs :: exprListWalk vs
def exprListWalk : List PExpr → List PExpr
  | [] => []
  | e :: rest => exprWalk e ++ exprListWalk rest
end

/-- Expression trees hanging directly off one statement node (not through a
nested statement).  Parameter annotations and default expressions are
abstracted into the `annotated` flag of `PArg` and so contribute no
expression nodes here. -/
def stmtOwnExprs : Stmt → List PExpr
  | .funcDef _ _ _ _ _ => []
  | .classDef _ _ _ => []
  | .ifStmt _ t _ _ => exprWalk t
  | .forStmt _ tg it _ _ => exprWalk tg ++ exprWalk it
  | .asyncForStmt _ tg it _ _ => exprWalk tg ++ exprWalk it
  | .whileStmt _ t _ _ => exprWalk t
  | .withStmt _ c _ => exprWalk c
  | .asyncWithStmt _ c _ => exprWalk c
  | .tryStmt _ _ hs _ _ =>
      hs.flatMap fun h => match h with
        | .mk (some t) _ _ => exprWalk t
        | .mk none _ _ => []
  | .ret _ (some v) => exprWalk v
  | .ret _ none => []
  | .raiseStmt _ (some v) => exprWalk v
  | .raiseStmt _ none => []
  | .breakStmt _ => []
  | .continueStmt _ => []
  | .assign _ tgs v => exprListWalk tgs ++ exprWalk v
  | .annAssign _ t (some v) => exprWalk t ++ exprWalk v
  | .annAssign _ t none => exprWalk t
  | .assertStmt _ t => exprWalk t
  | .importStmt _ _ => []
  | .exprStmt _ e => exprWalk e
  | .passStmt _ => []

/-- All expression nodes that `ast.walk` reaches from a statement. -/
def stmtAllExprs (s : Stmt) : List PExpr := (stmtWalk s).flatMap stmtOwnExprs

/-- All expression nodes of a module. -/
def moduleExprs (tree : PyModule) : List PExpr := (moduleWalk tree).flatMap stmtOwnExprs

/-- A detected code smell (`@dataclass CodeSmell`). -/
structure CodeSmell where
  type : String
  file : String
  node_name : String
  line : Nat
  severity : String
  description : String
deriving DecidableEq

/-- `get_method_severity`: severity classification for long methods. -/
def get_method_severity (lines : Nat) : String :=
  if 50 < lines then "critical"
  else if 35 < lines then "high"
  else if 25 < lines then "medium"
  else "low"

/-- Smell detection 1, loop body: a `long_method` smell for one walked node
when it is a function whose `count_lines` exceeds 20. -/
def longMethodCheck (file_path : String) (node : Stmt) : List CodeSmell :=
  match node with
  | .funcDef n line a r b =>
      let func_lines := count_lines (.funcDef n line a r b)
      if 20 < func_lines then
        [{ type := "long_method", file := file_path, node_name := n, line := line,
           severity := get_method_severity func_lines,
           description := "Function " ++ n ++ ": " ++ toString func_lines ++ " lines" }]
      else []
  | _ => []

/-- Smell detection 1: long methods, over all walked nodes. -/
def longMethodSmells (file_path : String) (tree : PyModule) : List CodeSmell :=
  (moduleWalk tree).flatMap (longMethodCheck file_path)

/-- `sum(1 for n in ast.walk(node) if isinstance(n, ast.FunctionDef))`. -/
def methodCount (node : Stmt) : Nat := ((stmtWalk node).filter isFuncDef).length

/-- Smell detection 2, loop body: a `god_class` smell for one walked node
when it is a class with more than 100 statements or more than 10 methods. -/
def godClassCheck (file_path : String) (node : Stmt) : List CodeSmell :=
  match node with
  | .classDef n line b =>
      let class_lines := count_lines (.classDef n line b)
      let methods := methodCount (.classDef n line b)
      if 100 < class_lines ∨ 10 < methods then
        [{ type := "god_class", file := file_path, node_name := n, line := line,
           severity := if 200 < class_lines ∨ 15 < methods then "critical" else "high",
           description := "Class " ++ n ++ ": " ++ toString class_lines ++ "loc, " ++
             toString methods ++ " methods" }]
      else []
  | _ => []

/-- Smell detection 2: god classes, over all walked nodes. -/
def godClassSmells (file_path : String) (tree : PyModule) : List CodeSmell :=
  (moduleWalk tree).flatMap (godClassCheck file_path)

mutual
/-- `find_max_nesting`, visiting one statement: the running maximum is
updated with the depth the caller passed in, and every child is visited at
that same depth (the caller, not the visit, decides the increment).
Expression children host no statements and so never move the maximum. -/
def nestStmt : Stmt → Nat → Nat
  | .funcDef _ _ _ _ b, depth => max depth (nestBlock b depth)
  | .classDef _ _ b, depth => max depth (nestBlock b depth)
  | .ifStmt _ _ b o, depth => max depth (max (nestBlock b depth) (nestBlock o depth))
  | .forStmt _ _ _ b o, depth => max depth (max (nestBlock b depth) (nestBlock o depth))
  | .asyncForStmt _ _ _ b o, depth => max depth (max (nestBlock b depth) (nestBlock o depth))
  | .whileStmt _ _ b o, depth => max depth (max (nestBlock b depth) (nestBlock o depth))
  | .withStmt _ _ b, depth => max depth (nestBlock b depth)
  | .asyncWithStmt _ _ b, depth => max depth (nestBlock b depth)
  | .tryStmt _ b hs o f, depth =>
      max depth (max (max (nestBlock b depth) (nestHandlers hs depth))
        (max (nestBlock o depth) (nestBlock f depth)))
  | _, depth => depth
/-- `find_max_nesting` over the statements of one block: each child is
visited at `depth + 1` when it is a control-flow construct, at `depth`
otherwise. -/
def nestBlock : List Stmt → Nat → Nat
  | [], depth => depth
  | c :: rest, depth =>
      max (nestStmt c (if isControlFlow c then depth + 1 else depth)) (nestBlock rest depth)
/-- `find_max_nesting` through `ast.ExceptHandler` nodes: a handler is not a
control-flow construct, so its body is visited at the incoming depth. -/
def nestHandlers : List PHandler → Nat → Nat
  | [], depth => depth
  | .mk _ _ hb :: rest, depth => max (nestBlock hb depth) (nestHandlers rest depth)
end

/-- `find_max_nesting(tree)`: recursion from the module root at depth 0. -/
def find_max_nesting (tree : PyModule) : Nat := nestBlock tree 0

/-- Smell detection 3: deep nesting (at most one smell per file). -/
def deepNestingSmells (file_path : String) (tree : PyModule) : List CodeSmell :=
  let max_nesting := find_max_nesting tree
  if 4 < max_nesting then
    [{ type := "deep_nesting", file := file_path, node_name := "complex logic", line := 1,
       severity := if 6 < max_nesting then "high" else "medium",
       description := "Max nesting depth: " ++ toString max_nesting }]
  else []

/-- Smell detection 4, loop body: `long_parameter_list` when a function has
more than 4 positional parameters (`len(node.args.args)`). -/
def longParameterListCheck (file_path : String) (node : Stmt) : List CodeSmell :=
  match node with
  | .funcDef n line a _ _ =>
      let param_count := a.length
      if 4 < param_count then
        [{ type := "long_parameter_list", file := file_path, node_name := n, line := line,
           severity := if 6 < param_count then "high" else "medium",
           description := "Function " ++ n ++ ": " ++ toString param_count ++ " parameters" }]
      else []
  | _ => []

/-- Smell detection 4: long parameter lists, over all walked nodes. -/
def longParameterListSmells (file_path : String) (tree : PyModule) : List CodeSmell :=
  (moduleWalk tree).flatMap (longParameterListCheck file_path)

/-- Smell detection 5, loop body: `missing_type_hints` when no parameter is
annotated and there is no return annotation. -/
def missingTypeHintsCheck (file_path : String) (node : Stmt) : List CodeSmell :=
  match node with
  | .funcDef n line a r _ =>
      let has_annots := a.any fun arg => arg.annotated
      if !has_annots && !r then
        [{ type := "missing_type_hints", file := file_path, node_name := n, line := line,
           severity := if 2 < a.length then "medium" else "low",
           description := "Function " ++ n ++ ": no parameter or return type hints" }]
      else []
  | _ => []

/-- Smell detection 5: missing type hints, over all walked nodes. -/
def missingTypeHintsSmells (file_path : String) (tree : PyModule) : List CodeSmell :=
  (moduleWalk tree).flatMap (missingTypeHintsCheck file_path)

/-- First-occurrence de-duplication, modelling Python set iteration order
(insertion order of first occurrences for a freshly built set of strings). -/
def dedupFirst (l : List String) : List String :=
  l.foldl (fun acc x => if x ∈ acc then acc else acc ++ [x]) []

/-- Imported base names: `alias.name.split(".")[0]` over every
`ast.Import`/`ast.ImportFrom` alias in the walk. -/
def importedNames (tree : PyModule) : List String :=
  (moduleWalk tree).flatMap fun s => match s with
    | .importStmt _ ns => ns.map fun n => (n.splitOn ".").headD n
    | _ => []

/-- Identifiers appearing as `ast.Name` in `ast.Load` context. -/
def usedNames (tree : PyModule) : List String :=
  (moduleExprs tree).filterMap fun e => match e with
    | .name id true => some id
    | _ => none

/-- Smell detection 6: unused imports (set difference; one smell naming up
to the first three unused imports). -/
def unusedImportsSmells (file_path : String) (tree : PyModule) : List CodeSmell :=
  let unused_imports :=
    (dedupFirst (importedNames tree)).filter fun n => !((usedNames tree).contains n)
  if unused_imports ≠ [] then
    [{ type := "unused_imports", file := file_path,
       node_name := String.intercalate ", " (unused_imports.take 3), line := 1,
       severity := "low",
       description := "Unused imports: " ++ String.intercalate ", " (unused_imports.take 3) }]
  else []

/-- Smell detection 7, variable collection: names bound by simple
assignments (`ast.Assign` targets that are `ast.Name` or tuples of names)
or annotated assignments (`ast.AnnAssign` with an `ast.Name` target)
anywhere in the walk of one function. -/
def localVarNames (node : Stmt) : List String :=
  (stmtWalk node).flatMap fun inner => match inner with
    | .assign _ tgs _ => tgs.flatMap fun t => match t with
        | .name id _ => [id]
        | .tuple es => es.filterMap fun e => match e with
            | .name id _ => some id
            | _ => none
        | _ => []
    | .annAssign _ (.name id _) _ => [id]
    | _ => []

/-- Smell detection 7, loop body: `many_local_variables` when a function
binds more than 8 distinct local names. -/
def manyLocalVariablesCheck (file_path : String) (node : Stmt) : List CodeSmell :=
  match node with
  | .funcDef n line a r b =>
      let local_count := (localVarNames (.funcDef n line a r b)).dedup.length
      if 8 < local_count then
        [{ type := "many_local_variables", file := file_path, node_name := n, line := line,
           severity := if local_count ≤ 15 then "medium" else "high",
           description := "Function defines " ++ toString local_count ++
             " local variables; consider splitting into smaller functions." }]
      else []
  | _ => []

/-- Smell detection 7: many local variables, over all walked nodes. -/
def manyLocalVariablesSmells (file_path : String) (tree : PyModule) : List CodeSmell :=
  (moduleWalk tree).flatMap (manyLocalVariablesCheck file_path)

/-- Smell detection 8, tally: the base identifiers of attribute accesses
`base.attr` (an `ast.Attribute` whose value is an `ast.Name`) in the walk
of one method, with multiplicity. -/
def attrBases (node : Stmt) : List String :=
  (stmtAllExprs node).filterMap fun e => match e with
    | .attr (.name b _) _ => some b
    | _ => none

/-- `base_counts.get("self", 0)`. -/
def selfAccessCount (node : Stmt) : Nat := (attrBases node).count "self"

/-- The non-`self` attribute accesses of a method, with multiplicity. -/
def foreignBases (node : Stmt) : List String :=
  (attrBases node).filter fun b => b != "self"

/-- `max(foreign_items, key=...)[1]`: the access count of the
most-accessed foreign base (0 when there is none). -/
def maxForeignCount (node : Stmt) : Nat :=
  ((foreignBases node).map fun b => (attrBases node).count b).foldr max 0

/-- `max(foreign_items, key=...)[0]`: the most-accessed foreign base,
resolving ties in favour of first occurrence as Python `max` over dict
items does. -/
def argmaxForeignBase (node : Stmt) : String :=
  ((foreignBases node).filter fun b => (attrBases node).count b = maxForeignCount node).headD ""

/-- Smell detection 8, loop body: `feature_envy` for one direct member of a
class body when it is a method whose most-accessed foreign base is accessed
at least 5 times and at least twice as often as `max(1, self_count)`. -/
def featureEnvyCheck (file_path clsName : String) (node : Stmt) : List CodeSmell :=
  match node with
  | .funcDef mname mline a r b =>
      let m := Stmt.funcDef mname mline a r b
      if attrBases m = [] then []
      else if foreignBases m = [] then []
      else
        let self_count := selfAccessCount m
        let foreign_count := maxForeignCount m
        if 5 ≤ foreign_count ∧ 2 * max 1 self_count ≤ foreign_count then
          [{ type := "feature_envy", file := file_path,
             node_name := clsName ++ "." ++ mname, line := mline, severity := "medium",
             description := "Method uses attributes of " ++ argmaxForeignBase m ++
               " much more than self; consider moving or refactoring." }]
        else []
  | _ => []

/-- Smell detection 8: feature envy, over the direct members of every
walked class. -/
def featureEnvySmells (file_path : String) (tree : PyModule) : List CodeSmell :=
  (moduleWalk tree).flatMap fun c => match c with
    | .classDef cname _ body => body.flatMap (featureEnvyCheck file_path cname)
    | _ => []

/-- Broad handler test: bare `except:` or `except Exception:`. -/
def isBroadHandlerType : Option PExpr → Bool
  | none => true
  | some (.name "Exception" _) => true
  | some _ => false

/-- Handler body `[]` or exactly one `pass`. -/
def isEmptyOrPassOnly : List Stmt → Bool
  | [] => true
  | [.passStmt _] => true
  | _ => false

/-- Smell detection 9, loop body: `exception_swallowing` for each broad,
effectively empty handler of a walked `try` statement. -/
def exceptionSwallowingCheck (file_path : String) (node : Stmt) : List CodeSmell :=
  match node with
  | .tryStmt _ _ hs _ _ =>
      hs.flatMap fun h => match h with
        | .mk t hline hb =>
            if isBroadHandlerType t && isEmptyOrPassOnly hb then
              [{ type := "exception_swallowing", file := file_path, node_name := "<module>",
                 line := hline, severity := "high",
                 description := "Exception swallowed with broad except and no real handling." }]
            else []
  | _ => []

/-- Smell detection 9: exception swallowing, over all walked nodes. -/
def exceptionSwallowingSmells (file_path : String) (tree : PyModule) : List CodeSmell :=
  (moduleWalk tree).flatMap (exceptionSwallowingCheck file_path)

/-- The smell emitted for one unreachable statement. -/
def unreachSmell (file_path func_name : String) (stmt : Stmt) : CodeSmell :=
  { type := "unreachable_code", file := file_path, node_name := func_name,
    line := stmtLine stmt, severity := "medium",
    description := "Statement is unreachable (after return/raise/break/continue)." }

mutual
/-- The loop of `_mark_unreachable_in_block` with its `dead` flag: a smell
is emitted for the current statement when `dead` already holds, then the
flag absorbs `isTerminator`, and nested blocks are visited with a fresh
flag. -/
def markUnreachableGo (file_path func_name : String) : List Stmt → Bool → List CodeSmell
  | [], _ => []
  | stmt :: rest, dead =>
      (if dead then [unreachSmell file_path func_name stmt] else []) ++
      markUnreachableSub file_path func_name stmt ++
      markUnreachableGo file_path func_name rest (dead || isTerminator stmt)
/-- The nested-block recursion of `_mark_unreachable_in_block`: for the
seven compound constructs it visits `body`, `orelse`, `finalbody` and the
handler bodies, in that attribute order, each as an independent block. -/
def markUnreachableSub (file_path func_name : String) : Stmt → List CodeSmell
  | .ifStmt _ _ b o =>
      markUnreachableGo file_path func_name b false ++ markUnreachableGo file_path func_name o false
  | .forStmt _ _ _ b o =>
      markUnreachableGo file_path func_name b false ++ markUnreachableGo file_path func_name o false
  | .asyncForStmt _ _ _ b o =>
      markUnreachableGo file_path func_name b false ++ markUnreachableGo file_path func_name o false
  | .whileStmt _ _ b o =>
      markUnreachableGo file_path func_name b false ++ markUnreachableGo file_path func_name o false
  | .withStmt _ _ b => markUnreachableGo file_path func_name b false
  | .asyncWithStmt _ _ b => markUnreachableGo file_path func_name b false
  | .tryStmt _ b hs o f =>
      markUnreachableGo file_path func_name b false ++
      markUnreachableGo file_path func_name o false ++
      markUnreachableGo file_path func_name f false ++
      markUnreachableHandlers file_path func_name hs
  | _ => []
/-- Handler bodies, each an independent linear block. -/
def markUnreachableHandlers (file_path func_name : String) : List PHandler → List CodeSmell
  | [] => []
  | .mk _ _ hb :: rest =>
      markUnreachableGo file_path func_name hb false ++
      markUnreachableHandlers file_path func_name rest
end

/-- `_mark_unreachable_in_block`: detect unreachable statements in a linear
block, starting with the `dead` flag unset. -/
def mark_unreachable_in_block (file_path func_name : String) (block : List Stmt) : List CodeSmell :=
  markUnreachableGo file_path func_name block false

/-- Smell detection 10: unreachable code, over the body of every walked
function. -/
def unreachableCodeSmells (file_path : String) (tree : PyModule) : List CodeSmell :=
  (moduleWalk tree).flatMap fun node => match node with
    | .funcDef n _ _ _ body => mark_unreachable_in_block file_path n body
    | _ => []

/-- `severity_weights` (`self.severity_weights` in `__init__`). -/
def severity_weights : String → Nat
  | "low" => 1
  | "medium" => 2
  | "high" => 3
  | "critical" => 5
  | _ => 0

/-- `cyclomatic_complexity`: 1, plus 1 per `If`/`For`/`While`/`Assert`
node, plus `len(values) - 1` per `BoolOp` node. -/
def cyclomatic_complexity (tree : PyModule) : Nat :=
  1 +
  ((moduleWalk tree).filter fun s => match s with
    | .ifStmt _ _ _ _ => true
    | .forStmt _ _ _ _ _ => true
    | .whileStmt _ _ _ _ => true
    | .assertStmt _ _ => true
    | _ => false).length +
  ((moduleExprs tree).map fun e => match e with
    | .boolOp vs => vs.length - 1
    | _ => 0).sum

/-- The fixed operator vocabulary of the simplified Halstead volume. -/
def halsteadOperatorSet : List String :=
  ["+", "-", "*", "/", "==", "!=", "and", "or"]

/-- The operand name contributed by one side of a `BinOp`: the identifier
for an `ast.Name`, otherwise `type(node).__name__`. -/
def halsteadOperandName : PExpr → String
  | .name id _ => id
  | .const => "Constant"
  | .attr _ _ => "Attribute"
  | .call _ _ => "Call"
  | .tuple _ => "Tuple"
  | .binOp _ _ => "BinOp"
  | .boolOp _ => "BoolOp"

/-- `total_tokens`: the number of `BinOp` nodes in the walk. -/
def halsteadTotalTokens (tree : PyModule) : Nat :=
  ((moduleExprs tree).filter fun e => match e with
    | .binOp _ _ => true
    | _ => false).length

/-- The operand vocabulary: both operand names of every `BinOp`, as a set
(first-occurrence order). -/
def halsteadOperands (tree : PyModule) : List String :=
  dedupFirst ((moduleExprs tree).flatMap fun e => match e with
    | .binOp l r => [halsteadOperandName l, halsteadOperandName r]
    | _ => [])

/-- `log_arg`, floored at 2 (dead in practice: `len(operators)` is 8, so
the argument is at least 9, but the code guards anyway). -/
def halsteadLogArg (tree : PyModule) : Nat :=
  let la := halsteadOperatorSet.length + (halsteadOperands tree).length + 1
  if la ≤ 1 then 2 else la

/-- `halstead_volume`: `total_tokens * math.log2(log_arg)`. -/
noncomputable def halstead_volume (tree : PyModule) : ℝ :=
  (halsteadTotalTokens tree : ℝ) * Real.logb 2 (halsteadLogArg tree : ℝ)

/-- `calculate_mi`: the MI formula with `hv` and `loc` floored at 1, then
clamped into [0, 100] by `min(100, max(0, ...))`. -/
noncomputable def calculate_mi (hv : ℝ) (cc : Nat) (loc : Nat) : ℝ :=
  let hvf : ℝ := max 1 hv
  let locf : Nat := max 1 loc
  min 100 (max 0 (171 - 5.2 * Real.log hvf - 0.23 * (cc : ℝ) - 16.2 * Real.log (locf : ℝ)))

/-- `loc` of a file: the number of statement nodes of its tree. -/
def module_loc (tree : PyModule) : Nat := (moduleWalk tree).length

/-- All smells of one file, detectors 1-10 in source order. -/
def fileSmells (file_path : String) (tree : PyModule) : List CodeSmell :=
  longMethodSmells file_path tree ++
  godClassSmells file_path tree ++
  deepNestingSmells file_path tree ++
  longParameterListSmells file_path tree ++
  missingTypeHintsSmells file_path tree ++
  unusedImportsSmells file_path tree ++
  manyLocalVariablesSmells file_path tree ++
  featureEnvySmells file_path tree ++
  exceptionSwallowingSmells file_path tree ++
  unreachableCodeSmells file_path tree

/-- `smell_penalty`: `sum(self.severity_weights[s.severity] for s in
metrics.smells)`. -/
def smellPenalty (smells : List CodeSmell) : Nat :=
  (smells.map fun s => severity_weights s.severity).sum

/-- `@dataclass FileMetrics`. -/
structure FileMetrics where
  file_path : String
  loc : Nat
  mi : ℝ
  smells : List CodeSmell
  quality_score : ℝ

/-- The `FileMetrics` record that `analyze_file` builds for one parsed
file: `loc`, the ten detectors, `mi`, and
`quality_score = max(0, mi / 20 - smell_penalty * 0.5)`. -/
noncomputable def buildFileMetrics (file_path : String) (tree : PyModule) : FileMetrics :=
  let smells := fileSmells file_path tree
  let mi := calculate_mi (halstead_volume tree) (cyclomatic_complexity tree) (module_loc tree)
  { file_path := file_path
    loc := module_loc tree
    mi := mi
    smells := smells
    quality_score := max 0 (mi / 20 - (smellPenalty smells : ℝ) * 0.5) }

/-- The analyzer object's mutable aggregation state: `self.smells` and
`self.files` (a dict, modelled as a key-ordered association list). -/
structure AnalyzerState where
  smells : List CodeSmell
  files : List (String × FileMetrics)

/-- The state set up by `__init__`. -/
def initState : AnalyzerState := { smells := [], files := [] }

/-- `self.files[file_path] = metrics`: dict update — replace in place if
the key is present, append otherwise. -/
def dictSet (fs : List (String × FileMetrics)) (k : String) (v : FileMetrics) :
    List (String × FileMetrics) :=
  match fs with
  | [] => [(k, v)]
  | (k', v') :: rest => if k' = k then (k, v) :: rest else (k', v') :: dictSet rest k v

/-- The successful tail of `analyze_file`: store the new `FileMetrics`
under the path and extend the project-wide smell list. -/
noncomputable def analyze_file_ok (st : AnalyzerState) (file_path : String) (tree : PyModule) :
    AnalyzerState :=
  let metrics := buildFileMetrics file_path tree
  { files := dictSet st.files file_path metrics
    smells := st.smells ++ metrics.smells }

/-- `analyze_file`: `ast.parse` runs before any mutation of `self`; a parse
error propagates to the caller with the state exactly as it was. -/
noncomputable def analyze_file (st : AnalyzerState) (file_path : String)
    (parsed : Except String PyModule) : Except (String × AnalyzerState) AnalyzerState :=
  match parsed with
  | .error e => .error (e, st)
  | .ok tree => .ok (analyze_file_ok st file_path tree)

/-- Python `round(x, 1)` intermediate step: round to the nearest integer,
ties to even (the rounding Python `round` documents). -/
noncomputable def roundHalfEven (x : ℝ) : ℤ :=
  if Int.fract x < 1 / 2 then ⌊x⌋
  else if 1 / 2 < Int.fract x then ⌊x⌋ + 1
  else if Even ⌊x⌋ then ⌊x⌋ else ⌊x⌋ + 1

/-- Python `round(x, 1)`: one decimal digit, ties to even. -/
noncomputable def round1 (x : ℝ) : ℝ := (roundHalfEven (10 * x) : ℝ) / 10

/-- The dictionary returned by `compute_project_metrics` (the optional
docstring-coverage entry is orthogonal to the computation and omitted). -/
structure ProjectMetrics where
  project_mi : ℝ
  avg_quality_score : ℝ
  total_files : Nat
  total_smells : Nat
  severity_distribution : List (String × Nat)
  files : List (String × FileMetrics)

/-- `Counter(s.severity for s in self.smells)`, as (severity, count) pairs
in first-occurrence order. -/
def severityDistribution (smells : List CodeSmell) : List (String × Nat) :=
  (dedupFirst (smells.map fun s => s.severity)).map fun v =>
    (v, (smells.map fun s => s.severity).count v)

/-- `compute_project_metrics`: zero metrics for an empty file map (and for
a zero total statement count), otherwise the statement-count-weighted mean
MI and the unweighted mean quality score, both rounded to one decimal
digit by `round(_, 1)`. -/
noncomputable def compute_project_metrics (st : AnalyzerState) : ProjectMetrics :=
  let total_smells := st.smells.length
  let avg_quality : ℝ :=
    if st.files.length = 0 then 0
    else ((st.files.map fun p => p.2.quality_score).sum) / (st.files.length : ℝ)
  let total_loc : Nat := (st.files.map fun p => p.2.loc).sum
  let project_mi : ℝ :=
    if st.files.length = 0 then 0
    else if total_loc = 0 then 0
    else ((st.files.map fun p => p.2.mi * (p.2.loc : ℝ)).sum) / (total_loc : ℝ)
  { project_mi := round1 project_mi
    avg_quality_score := round1 avg_quality
    total_files := st.files.length
    total_smells := total_smells
    severity_distribution := severityDistribution st.smells
    files := st.files }

mutual
/-- Spec 4.1 reading, per statement: the nesting depth contributed below
one statement — the deepest chain of control-flow constructs in any of its
blocks, the statement itself excluded. -/
def cfInnerStmt : Stmt → Nat
  | .funcDef _ _ _ _ b => cfDepthBlock b
  | .classDef _ _ b => cfDepthBlock b
  | .ifStmt _ _ b o => max (cfDepthBlock b) (cfDepthBlock o)
  | .forStmt _ _ _ b o => max (cfDepthBlock b) (cfDepthBlock o)
  | .asyncForStmt _ _ _ b o => max (cfDepthBlock b) (cfDepthBlock o)
  | .whileStmt _ _ b o => max (cfDepthBlock b) (cfDepthBlock o)
  | .withStmt _ _ b => cfDepthBlock b
  | .asyncWithStmt _ _ b => cfDepthBlock b
  | .tryStmt _ b hs o f =>
      max (max (cfDepthBlock b) (cfHandlersDepth hs)) (max (cfDepthBlock o) (cfDepthBlock f))
  | _ => 0
/-- Spec 4.1 reading, per block: the maximum over the block's statements of
(1 if the statement is a control-flow construct, else 0) plus the depth
below it — i.e. the depth of the deepest nested chain of control-flow
constructs in the block. -/
def cfDepthBlock : List Stmt → Nat
  | [] => 0
  | s :: rest => max ((if isControlFlow s then 1 else 0) + cfInnerStmt s) (cfDepthBlock rest)
/-- Spec 4.1 reading, through exception handlers (not themselves
control-flow constructs): the deepest chain in any handler body. -/
def cfHandlersDepth : List PHandler → Nat
  | [] => 0
  | .mk _ _ hb :: rest => max (cfDepthBlock hb) (cfHandlersDepth rest)
end

mutual
/-- Spec reading of UnreachableCode on one linear block: the first
statement of a block is reachable; once a terminating statement is seen,
each statement that follows it in the same block yields exactly one smell;
nested blocks are processed independently either way. -/
def specDeadBlock (file_path func_name : String) : List Stmt → List CodeSmell
  | [] => []
  | s :: rest =>
      specDeadSub file_path func_name s ++
      (if isTerminator s then specAllDead file_path func_name rest
       else specDeadBlock file_path func_name rest)
/-- Spec reading, after a terminator: every remaining statement of the
block yields exactly one smell at its own line, and its nested blocks are
still processed independently. -/
def specAllDead (file_path func_name : String) : List Stmt → List CodeSmell
  | [] => []
  | s :: rest =>
      unreachSmell file_path func_name s ::
      (specDeadSub file_path func_name s ++ specAllDead file_path func_name rest)
/-- Spec reading, nested blocks of one statement: conditional branches,
loop bodies, context-manager bodies, `else` and `finally` blocks, and
exception-handler bodies, each an independent linear block. -/
def specDeadSub (file_path func_name : String) : Stmt → List CodeSmell
  | .ifStmt _ _ b o =>
      specDeadBlock file_path func_name b ++ specDeadBlock file_path func_name o
  | .forStmt _ _ _ b o =>
      specDeadBlock file_path func_name b ++ specDeadBlock file_path func_name o
  | .asyncForStmt _ _ _ b o =>
      specDeadBlock file_path func_name b ++ specDeadBlock file_path func_name o
  | .whileStmt _ _ b o =>
      specDeadBlock file_path func_name b ++ specDeadBlock file_path func_name o
  | .withStmt _ _ b => specDeadBlock file_path func_name b
  | .asyncWithStmt _ _ b => specDeadBlock file_path func_name b
  | .tryStmt _ b hs o f =>
      specDeadBlock file_path func_name b ++
      specDeadBlock file_path func_name o ++
      specDeadBlock file_path func_name f ++
      specDeadHandlers file_path func_name hs
  | _ => []
/-- Spec reading, exception-handler bodies. -/
def specDeadHandlers (file_path func_name : String) : List PHandler → List CodeSmell
  | [] => []
  | .mk _ _ hb :: rest =>
      specDeadBlock file_path func_name hb ++ specDeadHandlers file_path func_name rest
end

/-- Spec 4.4 reading: the statement-count-weighted mean of the files' MIs
(division by a zero weight sum is the junk value 0). -/
noncomputable def specProjectMI (st : AnalyzerState) : ℝ :=
  ((st.files.map fun p => p.2.mi * (p.2.loc : ℝ)).sum) /
    ((st.files.map fun p => (p.2.loc : ℝ)).sum)

/-- Spec 4.4 reading: the unweighted mean of the files' quality scores. -/
noncomputable def specAvgQuality (st : AnalyzerState) : ℝ :=
  ((st.files.map fun p => p.2.quality_score).sum) / (st.files.length : ℝ)

mutual
theorem nestStmt_eq (s : Stmt) (d : Nat) : nestStmt s d = d + cfInnerStmt s := by
  cases s with
  | funcDef n l a r b => simp only [nestStmt, cfInnerStmt, nestBlock_eq b d]; omega
  | classDef n l b => simp only [nestStmt, cfInnerStmt, nestBlock_eq b d]; omega
  | ifStmt l t b o => simp only [nestStmt, cfInnerStmt, nestBlock_eq b d, nestBlock_eq o d]; omega
  | forStmt l tg it b o => simp only [nestStmt, cfInnerStmt, nestBlock_eq b d, nestBlock_eq o d]; omega
  | asyncForStmt l tg it b o => simp only [nestStmt, cfInnerStmt, nestBlock_eq b d, nestBlock_eq o d]; omega
  | whileStmt l t b o => simp only [nestStmt, cfInnerStmt, nestBlock_eq b d, nestBlock_eq o d]; omega
  | withStmt l c b => simp only [nestStmt, cfInnerStmt, nestBlock_eq b d]; omega
  | asyncWithStmt l c b => simp only [nestStmt, cfInnerStmt, nestBlock_eq b d]; omega
  | tryStmt l b hs o f =>
      simp only [nestStmt, cfInnerStmt, nestBlock_eq b d, nestBlock_eq o d, nestBlock_eq f d,
        nestHandlers_eq hs d]
      omega
  | ret l v => simp [nestStmt, cfInnerStmt]
  | raiseStmt l v => simp [nestStmt, cfInnerStmt]
  | breakStmt l => simp [nestStmt, cfInnerStmt]
  | continueStmt l => simp [nestStmt, cfInnerStmt]
  | assign l tg v => simp [nestStmt, cfInnerStmt]
  | annAssign l t v => simp [nestStmt, cfInnerStmt]
  | assertStmt l t => simp [nestStmt, cfInnerStmt]
  | importStmt l ns => simp [nestStmt, cfInnerStmt]
  | exprStmt l e => simp [nestStmt, cfInnerStmt]
  | passStmt l => simp [nestStmt, cfInnerStmt]
theorem nestBlock_eq (blk : List Stmt) (d : Nat) : nestBlock blk d = d + cfDepthBlock blk := by
  cases blk with
  | nil => simp [nestBlock, cfDepthBlock]
  | cons c rest =>
      simp only [nestBlock, cfDepthBlock, nestBlock_eq rest d]
      cases hc : isControlFlow c with
      | false => simp only [hc, if_false, Bool.false_eq_true, nestStmt_eq c d]; omega
      | true => simp only [hc, if_true, nestStmt_eq c (d + 1)]; omega
theorem nestHandlers_eq (hs : List PHandler) (d : Nat) : nestHandlers hs d = d + cfHandlersDepth hs := by
  cases hs with
  | nil => simp [nestHandlers, cfHandlersDepth]
  | cons h rest =>
      cases h with
      | mk t l hb =>
          simp only [nestHandlers, cfHandlersDepth, nestBlock_eq hb d, nestHandlers_eq rest d]
          omega
end

theorem find_max_nesting_eq_cfDepth (tree : PyModule) :
    find_max_nesting tree = cfDepthBlock tree := by
  simp [find_max_nesting, nestBlock_eq tree 0]

mutual
theorem markUnreachableGo_false_eq (p f : String) (blk : List Stmt) :
    markUnreachableGo p f blk false = specDeadBlock p f blk := by
  cases blk with
  | nil => simp [markUnreachableGo, specDeadBlock]
  | cons s rest =>
      have hsub := markUnreachableSub_eq p f s
      cases ht : isTerminator s with
      | false =>
          have hrest := markUnreachableGo_false_eq p f rest
          simp [markUnreachableGo, specDeadBlock, ht, hsub, hrest]
      | true =>
          have hrest := markUnreachableGo_true_eq p f rest
          simp [markUnreachableGo, specDeadBlock, ht, hsub, hrest]
theorem markUnreachableGo_true_eq (p f : String) (blk : List Stmt) :
    markUnreachableGo p f blk true = specAllDead p f blk := by
  cases blk with
  | nil => simp [markUnreachableGo, specAllDead]
  | cons s rest =>
      have hsub := markUnreachableSub_eq p f s
      have hrest := markUnreachableGo_true_eq p f rest
      simp [markUnreachableGo, specAllDead, hsub, hrest]
theorem markUnreachableSub_eq (p f : String) (s : Stmt) :
    markUnreachableSub p f s = specDeadSub p f s := by
  cases s with
  | ifStmt l t b o =>
      simp only [markUnreachableSub, specDeadSub, markUnreachableGo_false_eq p f b,
        markUnreachableGo_false_eq p f o]
  | forStmt l tg it b o =>
      simp only [markUnreachableSub, specDeadSub, markUnreachableGo_false_eq p f b,
        markUnreachableGo_false_eq p f o]
  | asyncForStmt l tg it b o =>
      simp only [markUnreachableSub, specDeadSub, markUnreachableGo_false_eq p f b,
        markUnreachableGo_false_eq p f o]
  | whileStmt l t b o =>
      simp only [markUnreachableSub, specDeadSub, markUnreachableGo_false_eq p f b,
        markUnreachableGo_false_eq p f o]
  | withStmt l c b =>
      simp only [markUnreachableSub, specDeadSub, markUnreachableGo_false_eq p f b]
  | asyncWithStmt l c b =>
      simp only [markUnreachableSub, specDeadSub, markUnreachableGo_false_eq p f b]
  | tryStmt l b hs o fin =>
      simp only [markUnreachableSub, specDeadSub, markUnreachableGo_false_eq p f b,
        markUnreachableGo_false_eq p f o, markUnreachableGo_false_eq p f fin,
        markUnreachableHandlers_eq p f hs]
  | funcDef n l a r b => simp [markUnreachableSub, specDeadSub]
  | classDef n l b => simp [markUnreachableSub, specDeadSub]
  | ret l v => simp [markUnreachableSub, specDeadSub]
  | raiseStmt l v => simp [markUnreachableSub, specDeadSub]
  | breakStmt l => simp [markUnreachableSub, specDeadSub]
  | continueStmt l => simp [markUnreachableSub, specDeadSub]
  | assign l tg v => simp [markUnreachableSub, specDeadSub]
  | annAssign l t v => simp [markUnreachableSub, specDeadSub]
  | assertStmt l t => simp [markUnreachableSub, specDeadSub]
  | importStmt l ns => simp [markUnreachableSub, specDeadSub]
  | exprStmt l e => simp [markUnreachableSub, specDeadSub]
  | passStmt l => simp [markUnreachableSub, specDeadSub]
theorem markUnreachableHandlers_eq (p f : String) (hs : List PHandler) :
    markUnreachableHandlers p f hs = specDeadHandlers p f hs := by
  cases hs with
  | nil => simp [markUnreachableHandlers, specDeadHandlers]
  | cons h rest =>
      cases h with
      | mk t l hb =>
          simp only [markUnreachableHandlers, specDeadHandlers,
            markUnreachableGo_false_eq p f hb, markUnreachableHandlers_eq p f rest]
end

mutual
theorem markUnreachableGo_mem (p f : String) (blk : List Stmt) (dead : Bool) (c : CodeSmell)
    (hc : c ∈ markUnreachableGo p f blk dead) : ∃ t : Stmt, c = unreachSmell p f t := by
  cases blk with
  | nil => simp [markUnreachableGo] at hc
  | cons s rest =>
      simp only [markUnreachableGo, List.mem_append] at hc
      rcases hc with (hc | hc) | hc
      · cases dead with
        | false => simp at hc
        | true =>
            simp at hc
            exact ⟨s, hc⟩
      · exact markUnreachableSub_mem p f s c hc
      · exact markUnreachableGo_mem p f rest (dead || isTerminator s) c hc
theorem markUnreachableSub_mem (p f : String) (s : Stmt) (c : CodeSmell)
    (hc : c ∈ markUnreachableSub p f s) : ∃ t : Stmt, c = unreachSmell p f t := by
  cases s with
  | ifStmt l t b o =>
      simp only [markUnreachableSub, List.mem_append] at hc
      rcases hc with hc | hc
      · exact markUnreachableGo_mem p f b false c hc
      · exact markUnreachableGo_mem p f o false c hc
  | forStmt l tg it b o =>
      simp only [markUnreachableSub, List.mem_append] at hc
      rcases hc with hc | hc
      · exact markUnreachableGo_mem p f b false c hc
      · exact markUnreachableGo_mem p f o false c hc
  | asyncForStmt l tg it b o =>
      simp only [markUnreachableSub, List.mem_append] at hc
      rcases hc with hc | hc
      · exact markUnreachableGo_mem p f b false c hc
      · exact markUnreachableGo_mem p f o false c hc
  | whileStmt l t b o =>
      simp only [markUnreachableSub, List.mem_append] at hc
      rcases hc with hc | hc
      · exact markUnreachableGo_mem p f b false c hc
      · exact markUnreachableGo_mem p f o false c hc
  | withStmt l cw b => exact markUnreachableGo_mem p f b false c (by simpa [markUnreachableSub] using hc)
  | asyncWithStmt l cw b => exact markUnreachableGo_mem p f b false c (by simpa [markUnreachableSub] using hc)
  | tryStmt l b hs o fin =>
      simp only [markUnreachableSub, List.mem_append] at hc
      rcases hc with ((hc | hc) | hc) | hc
      · exact markUnreachableGo_mem p f b false c hc
      · exact markUnreachableGo_mem p f o false c hc
      · exact markUnreachableGo_mem p f fin false c hc
      · exact markUnreachableHandlers_mem p f hs c hc
  | funcDef n l a r b => simp [markUnreachableSub] at hc
  | classDef n l b => simp [markUnreachableSub] at hc
  | ret l v => simp [markUnreachableSub] at hc
  | raiseStmt l v => simp [markUnreachableSub] at hc
  | breakStmt l => simp [markUnreachableSub] at hc
  | continueStmt l => simp [markUnreachableSub] at hc
  | assign l tg v => simp [markUnreachableSub] at hc
  | annAssign l t v => simp [markUnreachableSub] at hc
  | assertStmt l t => simp [markUnreachableSub] at hc
  | importStmt l ns => simp [markUnreachableSub] at hc
  | exprStmt l e => simp [markUnreachableSub] at hc
  | passStmt l => simp [markUnreachableSub] at hc
theorem markUnreachableHandlers_mem (p f : String) (hs : List PHandler) (c : CodeSmell)
    (hc : c ∈ markUnreachableHandlers p f hs) : ∃ t : Stmt, c = unreachSmell p f t := by
  cases hs with
  | nil => simp [markUnreachableHandlers] at hc
  | cons h rest =>
      cases h with
      | mk t l hb =>
          simp only [markUnreachableHandlers, List.mem_append] at hc
          rcases hc with hc | hc
          · exact markUnreachableGo_mem p f hb false c hc
          · exact markUnreachableHandlers_mem p f rest c hc
end

theorem lookup_dictSet (fs : List (String × FileMetrics)) (k : String) (v : FileMetrics) :
    (dictSet fs k v).lookup k = some v := by
  induction fs with
  | nil => simp [dictSet, List.lookup]
  | cons p rest ih =>
      obtain ⟨k', v'⟩ := p
      by_cases h : k' = k
      · subst h
        simp [dictSet, List.lookup]
      · simp only [dictSet, if_neg h, List.lookup]
        have : (k == k') = false := by
          simp [beq_eq_false_iff_ne]
          exact fun hk => h hk.symm
        simp [this, ih]

theorem countKey_dictSet (fs : List (String × FileMetrics)) (k : String) (v : FileMetrics)
    (h : ((fs.map Prod.fst).count k) ≤ 1) :
    (((dictSet fs k v).map Prod.fst).count k) = 1 := by
  induction fs with
  | nil => simp [dictSet]
  | cons p rest ih =>
      obtain ⟨k', v'⟩ := p
      by_cases hk : k' = k
      · subst hk
        simp only [List.map_cons, List.count_cons, beq_self_eq_true, if_true] at h
        have h0 : (rest.map Prod.fst).count k' = 0 := by omega
        simp [dictSet, List.count_cons, h0]
      · have hne : (k' == k) = false := beq_eq_false_iff_ne.mpr hk
        simp only [List.map_cons, List.count_cons, hne, Bool.false_eq_true, if_false] at h
        simp only [dictSet, if_neg hk, List.map_cons, List.count_cons, hne, Bool.false_eq_true,
          if_false]
        have := ih (by omega)
        omega

theorem min_max_clamp (x : ℝ) : min 100 (max 0 x) = max 0 (min 100 x) := by
  simp only [min_def, max_def]
  split_ifs <;> linarith

theorem roundHalfEven_zero : roundHalfEven 0 = 0 := by
  rw [roundHalfEven]
  rw [if_pos]
  · exact Int.floor_zero
  · rw [Int.fract_zero]; norm_num

theorem round1_zero : round1 0 = 0 := by
  rw [round1]
  norm_num [roundHalfEven_zero]

/-- Example input: a function with no parameters, no annotations and a
single `pass`; the only smell it produces is `missing_type_hints`. -/
def exTreeA : PyModule := [.funcDef "f" 1 [] false [.passStmt 2]]

/-- Twenty `pass` statements: together with the enclosing function node the
logical-statement count is 21. -/
def exBody20 : List Stmt := List.replicate 20 (.passStmt 2)

/-- A function whose logical-statement count is exactly 21. -/
def exF21 : Stmt := .funcDef "f" 1 [] false exBody20

/-- A class with exactly 11 trivial methods (23 statement nodes). -/
def exClass11 : Stmt :=
  .classDef "C" 1 (List.replicate 11 (.funcDef "m" 2 [] false [.passStmt 3]))

/-- A chain of `n` nested `if` statements ending in `pass`. -/
def nestedIf : Nat → Stmt
  | 0 => .passStmt 1
  | n + 1 => .ifStmt 1 .const [nestedIf n] []

/-- `k` attribute accesses `base.a`. -/
def envyAttrs (base : String) (k : Nat) : List PExpr :=
  List.replicate k (.attr (.name base true) "a")

/-- A method accessing a foreign object 6 times and `self` once. -/
def exEnvy61 : Stmt :=
  .funcDef "m" 2 [] false [.exprStmt 3 (.tuple (envyAttrs "other" 6 ++ envyAttrs "self" 1))]

/-- A method accessing a foreign object 4 times and `self` 3 times. -/
def exEnvy43 : Stmt :=
  .funcDef "m" 2 [] false [.exprStmt 3 (.tuple (envyAttrs "other" 4 ++ envyAttrs "self" 3))]

/-- C2: for every analyzed file the stored quality score equals
`max(0, mi / 20 − 0.5 · (sum of severity weights over the file's smells))`
with weights low = 1, medium = 2, high = 3, critical = 5; consequently the
quality score is never negative, whatever the smells. -/
theorem c2_quality_score_formula (file_path : String) (tree : PyModule) :
    (buildFileMetrics file_path tree).quality_score =
      max 0 ((buildFileMetrics file_path tree).mi / 20 -
        0.5 * (smellPenalty (fileSmells file_path tree) : ℝ)) ∧
    0 ≤ (buildFileMetrics file_path tree).quality_score ∧
    severity_weights "low" = 1 ∧ severity_weights "medium" = 2 ∧
    severity_weights "high" = 3 ∧ severity_weights "critical" = 5 := by
  refine ⟨?_, ?_, rfl, rfl, rfl, rfl⟩
  · simp only [buildFileMetrics]
    congr 1
    ring
  · simp only [buildFileMetrics]
    exact le_max_left 0 _

/-- C3: `calculate_mi` is exactly the clamped MI formula — HV and LOC are
floored at 1 before the logarithms — so it always lies in [0, 100]; the
`mi` stored for any parsed file is `calculate_mi` applied to the file's
Halstead volume, cyclomatic complexity and statement count, hence also
within [0, 100] (including a single-statement file or one with no binary
operations). -/
theorem c3_maintainability_index (file_path : String) (tree : PyModule) (hv : ℝ) (cc loc : Nat) :
    calculate_mi hv cc loc =
      max 0 (min 100 (171 - 5.2 * Real.log (max 1 hv) - 0.23 * (cc : ℝ) -
        16.2 * Real.log (max 1 (loc : ℝ)))) ∧
    0 ≤ calculate_mi hv cc loc ∧ calculate_mi hv cc loc ≤ 100 ∧
    (buildFileMetrics file_path tree).mi =
      calculate_mi (halstead_volume tree) (cyclomatic_complexity tree) (module_loc tree) ∧
    0 ≤ (buildFileMetrics file_path tree).mi ∧ (buildFileMetrics file_path tree).mi ≤ 100 := by
  have hcast : (((max 1 loc : Nat) : ℝ)) = max 1 (loc : ℝ) := by
    push_cast
    rfl
  have hlow : ∀ (hv' : ℝ) (cc' loc' : Nat), 0 ≤ calculate_mi hv' cc' loc' := by
    intro hv' cc' loc'
    simp only [calculate_mi]
    exact le_min (by norm_num) (le_max_left 0 _)
  have hhigh : ∀ (hv' : ℝ) (cc' loc' : Nat), calculate_mi hv' cc' loc' ≤ 100 := by
    intro hv' cc' loc'
    simp only [calculate_mi]
    exact min_le_left _ _
  refine ⟨?_, hlow hv cc loc, hhigh hv cc loc, rfl, hlow _ _ _, hhigh _ _ _⟩
  simp only [calculate_mi]
  rw [hcast, min_max_clamp]

/-- C5: a `long_method` smell is produced for a function definition exactly
when its logical-statement count exceeds 20 (a count of exactly 20 does not
trigger, 21 does), with severity critical above 50, high above 35, medium
above 25, and low otherwise. -/
theorem c5_long_method (file_path n : String) (line : Nat) (a : List PArg) (r : Bool)
    (b : List Stmt) :
    (longMethodCheck file_path (.funcDef n line a r b) ≠ [] ↔
      20 < count_lines (.funcDef n line a r b)) ∧
    (count_lines (.funcDef n line a r b) = 20 →
      longMethodCheck file_path (.funcDef n line a r b) = []) ∧
    (count_lines (.funcDef n line a r b) = 21 →
      longMethodCheck file_path (.funcDef n line a r b) ≠ []) ∧
    (∀ s ∈ longMethodCheck file_path (.funcDef n line a r b),
      s.severity =
        if 50 < count_lines (.funcDef n line a r b) then "critical"
        else if 35 < count_lines (.funcDef n line a r b) then "high"
        else if 25 < count_lines (.funcDef n line a r b) then "medium"
        else "low") := by
  have hiff : longMethodCheck file_path (.funcDef n line a r b) ≠ [] ↔
      20 < count_lines (.funcDef n line a r b) := by
    simp only [longMethodCheck]
    split_ifs with h <;> simp [h]
  refine ⟨hiff, ?_, ?_, ?_⟩
  · intro h20
    by_contra hne
    have := hiff.mp hne
    omega
  · intro h21
    exact hiff.mpr (by omega)
  · intro s hs
    simp only [longMethodCheck] at hs
    split_ifs at hs with h
    · simp only [List.mem_singleton] at hs
      subst hs
      simp [get_method_severity]
    · simp at hs

/-- C5 witness: a function of 21 logical statements triggers the detector,
at severity low. -/
theorem c5_long_method_witness :
    longMethodCheck "a.py" exF21 ≠ [] ∧
    (longMethodCheck "a.py" exF21).map (fun s => s.severity) = ["low"] := by
  have h := c5_long_method "a.py" "f" 1 [] false exBody20
  have h21 : count_lines (Stmt.funcDef "f" 1 [] false exBody20) = 21 := by decide
  exact ⟨h.2.2.1 h21, by decide⟩

/-- C10: when the input cannot be parsed, `analyze_file` propagates the
error and the aggregator state it hands back is exactly the input state —
no `FileMetrics` is stored and no smell is appended; only a successful
parse yields the updated state. -/
theorem c10_parse_failure_atomic (st : AnalyzerState) (file_path e : String) :
    analyze_file st file_path (.error e) = .error (e, st) ∧
    (analyze_file st file_path (.error e)).toOption = none ∧
    (∀ tree : PyModule,
      analyze_file st file_path (.ok tree) = .ok (analyze_file_ok st file_path tree)) :=
  ⟨rfl, rfl, fun _ => rfl⟩

/-- C1 (amended): re-analyzing the same path with identical parsed input
yields identical FileMetrics both times and leaves exactly one FileMetrics
entry for the path in the file map, but it extends the project-wide smell
list again, so the file's smells appear twice there and `total_smells`
counts them twice (replace for the map, append for the smell list). -/
theorem c1_reanalyze_amended (st : AnalyzerState) (file_path : String) (tree : PyModule)
    (h : (st.files.map Prod.fst).count file_path ≤ 1) :
    ((analyze_file_ok st file_path tree).files.lookup file_path =
      some (buildFileMetrics file_path tree)) ∧
    ((analyze_file_ok (analyze_file_ok st file_path tree) file_path tree).files.lookup
      file_path = some (buildFileMetrics file_path tree)) ∧
    (((analyze_file_ok (analyze_file_ok st file_path tree) file_path tree).files.map
      Prod.fst).count file_path = 1) ∧
    ((analyze_file_ok (analyze_file_ok st file_path tree) file_path tree).smells =
      st.smells ++ (buildFileMetrics file_path tree).smells ++
        (buildFileMetrics file_path tree).smells) ∧
    ((compute_project_metrics
        (analyze_file_ok (analyze_file_ok st file_path tree) file_path tree)).total_smells =
      st.smells.length + 2 * (buildFileMetrics file_path tree).smells.length) := by
  refine ⟨?_, ?_, ?_, ?_, ?_⟩
  · simp only [analyze_file_ok]
    exact lookup_dictSet _ _ _
  · simp only [analyze_file_ok]
    exact lookup_dictSet _ _ _
  · simp only [analyze_file_ok]
    exact countKey_dictSet _ _ _ (le_of_eq (countKey_dictSet _ _ _ h))
  · simp only [analyze_file_ok]
  · simp only [compute_project_metrics, analyze_file_ok, List.length_append]
    omega

/-- C1 counterexample: analyzing `exTreeA` (one smell) twice from the fresh
state leaves that smell twice in the project list and `total_smells` = 2,
not 1 — re-analysis appends the file's smells instead of replacing them. -/
theorem c1_reanalyze_counterexample :
    (buildFileMetrics "a.py" exTreeA).smells.length = 1 ∧
    (analyze_file_ok (analyze_file_ok initState "a.py" exTreeA) "a.py" exTreeA).smells.length
      = 2 ∧
    (compute_project_metrics
      (analyze_file_ok (analyze_file_ok initState "a.py" exTreeA) "a.py" exTreeA)).total_smells
      = 2 :=
  ⟨rfl, rfl, rfl⟩

/-- C1 witness: the amended theorem applied at the fresh state and a
concrete one-smell file. -/
theorem c1_reanalyze_witness :
    ((initState.files.map Prod.fst).count "a.py" ≤ 1) ∧
    (((analyze_file_ok (analyze_file_ok initState "a.py" exTreeA) "a.py" exTreeA).files.map
      Prod.fst).count "a.py" = 1) :=
  ⟨by simp [initState], (c1_reanalyze_amended initState "a.py" exTreeA (by simp [initState])).2.2.1⟩

/-- C4 (amended): with zero analyzed files `compute_project_metrics`
reports all-zero metrics without any division; with at least one file it
reports the unweighted mean quality score and the statement-count-weighted
mean MI, each rounded to one decimal digit (ties to even) as `round(_, 1)`
does, with `project_mi = 0.0` when the total statement count is zero. -/
theorem c4_project_metrics_amended (st : AnalyzerState) :
    (st.files = [] → st.smells = [] →
      (compute_project_metrics st).project_mi = 0 ∧
      (compute_project_metrics st).avg_quality_score = 0 ∧
      (compute_project_metrics st).total_files = 0 ∧
      (compute_project_metrics st).total_smells = 0) ∧
    ((compute_project_metrics st).total_files = st.files.length) ∧
    ((compute_project_metrics st).total_smells = st.smells.length) ∧
    (st.files ≠ [] →
      (compute_project_metrics st).avg_quality_score = round1 (specAvgQuality st) ∧
      (((st.files.map fun p => p.2.loc).sum ≠ 0) →
        (compute_project_metrics st).project_mi = round1 (specProjectMI st)) ∧
      (((st.files.map fun p => p.2.loc).sum = 0) →
        (compute_project_metrics st).project_mi = 0)) := by
  refine ⟨?_, rfl, rfl, ?_⟩
  · intro h1 h2
    refine ⟨?_, ?_, ?_, ?_⟩ <;> simp [compute_project_metrics, h1, h2, round1_zero]
  · intro hne
    have hlen : st.files.length ≠ 0 := by
      simpa using fun hx => hne (List.length_eq_zero.mp hx)
    refine ⟨?_, ?_, ?_⟩
    · simp only [compute_project_metrics, if_neg hlen, specAvgQuality]
    · intro hloc
      simp only [compute_project_metrics, if_neg hlen, if_neg hloc, specProjectMI]
      congr 2
      rw [Nat.cast_list_sum, List.map_map]
      rfl
    · intro hloc
      simp only [compute_project_metrics, if_neg hlen, hloc]
      simp [round1_zero]

/-- A handcrafted FileMetrics with statement count 1 and MI 0.25. -/
noncomputable def fmC4 : FileMetrics :=
  { file_path := "a.py", loc := 1, mi := 1 / 4, smells := [], quality_score := 1 / 4 }

/-- An analyzer state holding exactly the file of `fmC4`. -/
noncomputable def stC4 : AnalyzerState := { smells := [], files := [("a.py", fmC4)] }

/-- C4 counterexample: one analyzed file with statement count 1 and
MI 0.25; the weighted mean is 0.25 but the reported `project_mi` is
`round(0.25, 1) = 0.2` (ties to even), so the function does not return the
weighted mean itself. -/
theorem c4_project_metrics_counterexample :
    stC4.files ≠ [] ∧
    specProjectMI stC4 = 1 / 4 ∧
    (compute_project_metrics stC4).project_mi = 1 / 5 ∧
    (compute_project_metrics stC4).project_mi ≠ specProjectMI stC4 := by
  have hfloor : (⌊(5 : ℝ) / 2⌋ : ℤ) = 2 := by
    rw [Int.floor_eq_iff]
    norm_num
  have hfract : Int.fract ((5 : ℝ) / 2) = 1 / 2 := by
    rw [Int.fract, hfloor]
    norm_num
  have hround : roundHalfEven ((5 : ℝ) / 2) = 2 := by
    rw [roundHalfEven, hfract]
    rw [if_neg (by norm_num), if_neg (by norm_num), if_pos (by rw [hfloor]; decide)]
    exact hfloor
  have hspec : specProjectMI stC4 = 1 / 4 := by
    simp [specProjectMI, stC4, fmC4]
  have hval : (compute_project_metrics stC4).project_mi = round1 (1 / 4) := by
    simp [compute_project_metrics, stC4, fmC4]
  have hr : round1 ((1 : ℝ) / 4) = 1 / 5 := by
    rw [round1, show (10 : ℝ) * (1 / 4) = 5 / 2 by norm_num, hround]
    norm_num
  refine ⟨by simp [stC4], hspec, by rw [hval, hr], ?_⟩
  rw [hval, hr, hspec]
  norm_num

/-- C4 witness: the amended theorem applied at the empty state. -/
theorem c4_project_metrics_witness :
    (compute_project_metrics initState).project_mi = 0 ∧
    (compute_project_metrics initState).avg_quality_score = 0 ∧
    (compute_project_metrics initState).total_files = 0 ∧
    (compute_project_metrics initState).total_smells = 0 :=
  (c4_project_metrics_amended initState).1 rfl rfl

/-- C6: a `god_class` smell is produced for a class definition exactly when
its logical-statement count exceeds 100 or its method count exceeds 10;
severity is critical when the statement count exceeds 200 or the method
count exceeds 15 and high otherwise — in particular exactly 11 methods
with at most 200 statements gives severity high, and at most 100
statements with at most 10 methods gives no smell. -/
theorem c6_god_class (file_path n : String) (line : Nat) (body : List Stmt) :
    (godClassCheck file_path (.classDef n line body) ≠ [] ↔
      (100 < count_lines (.classDef n line body) ∨
        10 < methodCount (.classDef n line body))) ∧
    (∀ s ∈ godClassCheck file_path (.classDef n line body),
      s.severity =
        if 200 < count_lines (.classDef n line body) ∨ 15 < methodCount (.classDef n line body)
        then "critical" else "high") ∧
    (methodCount (.classDef n line body) = 11 → count_lines (.classDef n line body) ≤ 200 →
      (godClassCheck file_path (.classDef n line body)).map (fun s => s.severity) = ["high"]) ∧
    (count_lines (.classDef n line body) ≤ 100 → methodCount (.classDef n line body) ≤ 10 →
      godClassCheck file_path (.classDef n line body) = []) := by
  have hiff : godClassCheck file_path (.classDef n line body) ≠ [] ↔
      (100 < count_lines (.classDef n line body) ∨
        10 < methodCount (.classDef n line body)) := by
    simp only [godClassCheck]
    split_ifs with h <;> simp [h]
  refine ⟨hiff, ?_, ?_, ?_⟩
  · intro s hs
    simp only [godClassCheck] at hs
    split_ifs at hs with h hsev
    · simp only [List.mem_singleton] at hs
      subst hs
      rw [if_pos hsev]
    · simp only [List.mem_singleton] at hs
      subst hs
      rw [if_neg hsev]
    · simp at hs
  · intro h11 h200
    simp only [godClassCheck]
    rw [if_pos (Or.inr (by omega)), if_neg (by omega)]
    simp
  · intro hc hm
    simp only [godClassCheck]
    rw [if_neg (by omega)]

/-- C6 witness: the class with exactly 11 trivial methods (23 statements)
triggers the detector at severity high. -/
theorem c6_god_class_witness :
    godClassCheck "a.py" exClass11 ≠ [] ∧
    (godClassCheck "a.py" exClass11).map (fun s => s.severity) = ["high"] := by
  have h := c6_god_class "a.py" "C" 1 (List.replicate 11 (.funcDef "m" 2 [] false [.passStmt 3]))
  exact ⟨h.1.mpr (Or.inr (by decide)), h.2.2.1 (by decide) (by decide)⟩

/-- C7: `find_max_nesting` returns the maximum nesting depth of
control-flow constructs — the depth passed to a node's children grows by
exactly 1 when entering a conditional, loop (asynchronous variants
included), context-manager or exception-handling block and is unchanged
otherwise — and a `deep_nesting` smell is produced iff that depth exceeds
4, at severity high above 6 and medium otherwise; depth 4 yields nothing,
depth 5 yields medium, depth 7 yields high. -/
theorem c7_deep_nesting (file_path : String) (tree : PyModule) :
    find_max_nesting tree = cfDepthBlock tree ∧
    (deepNestingSmells file_path tree ≠ [] ↔ 4 < find_max_nesting tree) ∧
    (∀ s ∈ deepNestingSmells file_path tree,
      s.severity = if 6 < find_max_nesting tree then "high" else "medium") ∧
    (find_max_nesting [nestedIf 4] = 4 ∧ deepNestingSmells file_path [nestedIf 4] = []) ∧
    (find_max_nesting [nestedIf 5] = 5 ∧
      (deepNestingSmells file_path [nestedIf 5]).map (fun s => s.severity) = ["medium"]) ∧
    (find_max_nesting [nestedIf 7] = 7 ∧
      (deepNestingSmells file_path [nestedIf 7]).map (fun s => s.severity) = ["high"]) := by
  have hiff : deepNestingSmells file_path tree ≠ [] ↔ 4 < find_max_nesting tree := by
    simp only [deepNestingSmells]
    split_ifs with h <;> simp [h]
  refine ⟨find_max_nesting_eq_cfDepth tree, hiff, ?_, ⟨rfl, rfl⟩, ⟨rfl, rfl⟩, ⟨rfl, rfl⟩⟩
  intro s hs
  simp only [deepNestingSmells] at hs
  split_ifs at hs with h hsev
  · simp only [List.mem_singleton] at hs
    subst hs
    rw [if_pos hsev]
  · simp only [List.mem_singleton] at hs
    subst hs
    rw [if_neg hsev]
  · simp at hs

/-- C7 witness: depth 7 triggers the detector. -/
theorem c7_deep_nesting_witness : deepNestingSmells "a.py" [nestedIf 7] ≠ [] :=
  (c7_deep_nesting "a.py" [nestedIf 7]).2.1.mpr (by decide)

/-- C8: the unreachable-code walker agrees with the spec reading — within
every linear block (function body, and recursively every branch, loop
body, context-manager body, handler body and finally block) each statement
that follows a return/raise/break/continue in the same block yields
exactly one `unreachable_code` smell of severity medium at that
statement's line; `return x` followed by an assignment yields exactly one
smell at the assignment's line, and a block with no terminator before its
final statement yields none. -/
theorem c8_unreachable_code (file_path func_name : String) (block : List Stmt) :
    mark_unreachable_in_block file_path func_name block =
      specDeadBlock file_path func_name block ∧
    (∀ c ∈ mark_unreachable_in_block file_path func_name block,
      c.type = "unreachable_code" ∧ c.severity = "medium") ∧
    (∀ t : Stmt, (unreachSmell file_path func_name t).line = stmtLine t) ∧
    mark_unreachable_in_block file_path func_name
      [.ret 2 (some (.name "x" true)), .assign 3 [.name "y" false] .const] =
      [unreachSmell file_path func_name (.assign 3 [.name "y" false] .const)] ∧
    (unreachSmell file_path func_name (.assign 3 [.name "y" false] .const)).line = 3 ∧
    mark_unreachable_in_block file_path func_name [.assign 2 [.name "y" false] .const] = [] ∧
    unreachableCodeSmells file_path
      [.funcDef "f" 1 [] false
        [.ret 2 (some (.name "x" true)), .assign 3 [.name "y" false] .const]] =
      [unreachSmell file_path "f" (.assign 3 [.name "y" false] .const)] := by
  refine ⟨markUnreachableGo_false_eq file_path func_name block, ?_, fun t => rfl, rfl, rfl,
    rfl, rfl⟩
  intro c hc
  obtain ⟨t, rfl⟩ := markUnreachableGo_mem file_path func_name block false c hc
  exact ⟨rfl, rfl⟩

/-- C8 witness: the membership clause applied to the smell that the
`return x`-then-assignment block produces. -/
theorem c8_unreachable_code_witness :
    (unreachSmell "a.py" "f" (.assign 3 [.name "y" false] .const)).type = "unreachable_code" ∧
    (unreachSmell "a.py" "f" (.assign 3 [.name "y" false] .const)).severity = "medium" :=
  (c8_unreachable_code "a.py" "f"
      [.ret 2 (some (.name "x" true)), .assign 3 [.name "y" false] .const]).2.1
    (unreachSmell "a.py" "f" (.assign 3 [.name "y" false] .const)) (by decide)

/-- C9: a `feature_envy` smell (always severity medium) is produced for a
method exactly when it has foreign attribute accesses whose most-accessed
foreign base is accessed at least 5 times and at least twice as often as
the `self` base; 6 foreign accesses against 1 `self` access trigger, 4
against 3 do not. -/
theorem c9_feature_envy (file_path clsName mname : String) (mline : Nat) (a : List PArg)
    (r : Bool) (b : List Stmt) :
    (featureEnvyCheck file_path clsName (.funcDef mname mline a r b) ≠ [] ↔
      (foreignBases (.funcDef mname mline a r b) ≠ [] ∧
       5 ≤ maxForeignCount (.funcDef mname mline a r b) ∧
       2 * selfAccessCount (.funcDef mname mline a r b) ≤
         maxForeignCount (.funcDef mname mline a r b))) ∧
    (∀ s ∈ featureEnvyCheck file_path clsName (.funcDef mname mline a r b),
      s.severity = "medium") ∧
    (featureEnvyCheck file_path clsName exEnvy61).map (fun s => s.severity) = ["medium"] ∧
    featureEnvyCheck file_path clsName exEnvy43 = [] := by
  have harith : ∀ sc fc : Nat, 5 ≤ fc → (2 * max 1 sc ≤ fc ↔ 2 * sc ≤ fc) := by
    intro sc fc h5
    rcases Nat.eq_zero_or_pos sc with h0 | hpos
    · subst h0
      constructor <;> intro <;> omega
    · rw [Nat.max_eq_right hpos]
  refine ⟨?_, ?_, rfl, rfl⟩
  · by_cases hb : attrBases (Stmt.funcDef mname mline a r b) = []
    · have hf : foreignBases (Stmt.funcDef mname mline a r b) = [] := by
        simp [foreignBases, hb]
      simp [featureEnvyCheck, hb, hf]
    · by_cases hf : foreignBases (Stmt.funcDef mname mline a r b) = []
      · simp [featureEnvyCheck, hb, hf]
      · simp only [featureEnvyCheck, if_neg hb, if_neg hf]
        split_ifs with hcond
        · have h2sc := (harith _ _ hcond.1).mp hcond.2
          simp [hf, hcond.1, h2sc]
        · constructor
          · intro hx
            exact absurd rfl hx
          · rintro ⟨-, h5, h2⟩
            exact absurd ⟨h5, (harith _ _ h5).mpr h2⟩ hcond
  · intro s hs
    simp only [featureEnvyCheck] at hs
    split_ifs at hs with h1 h2 h3 <;> simp at hs
    subst hs
    rfl

/-- C9 witness: the method with 6 foreign accesses and 1 `self` access
satisfies the trigger condition and produces the smell. -/
theorem c9_feature_envy_witness : featureEnvyCheck "a.py" "C" exEnvy61 ≠ [] := by
  have h := c9_feature_envy "a.py" "C" "m" 2 [] false
    [.exprStmt 3 (.tuple (envyAttrs "other" 6 ++ envyAttrs "self" 1))]
  exact h.1.mpr ⟨by decide, by decide, by decide⟩
